import Mathlib

/-!
Verification of the redis-vault backup manager (`src/backup.rs`,
`src/storage/s3.rs`, `src/storage/gcs.rs`) against its natural-language
specification.

The embedding is shallow: the pure decision logic of the Rust code is
translated into executable Lean functions; the effectful environment
(Redis queries, file system, object store, wall clock) is passed in
explicitly as values and result-returning functions.  Fallible Rust
operations (`Result`) become `Except String`.
-/

namespace RedisVault

/-- One remote backup object, `BackupMetadata` in `src/storage/mod.rs`.
Timestamps are modelled as integers (chrono `DateTime<Utc>` values are
totally ordered; only comparisons and subtraction of durations occur). -/
structure BackupMeta where
  key : String
  timestamp : Int
  size : Int
deriving Repr, DecidableEq

instance : Inhabited BackupMeta := ⟨⟨"", 0, 0⟩⟩

/-- Redis replication role, `enum RedisRole` in `src/backup.rs`. -/
inductive RedisRole where
  | Master
  | Replica
  | Unknown
deriving Repr, DecidableEq

/-- From `BackupManager::new` (backup.rs lines 92-97): a Redis connection is
created exactly when `backup_master != backup_replica`. -/
def redisConnPresent (backup_master backup_replica : Bool) : Bool :=
  backup_master != backup_replica

/-- `BackupManager::should_backup` (backup.rs lines 108-129).  The pair's
second component records whether the Redis role was queried.  `roleResult`
is the outcome `get_redis_role` would produce if queried (an error when the
INFO query itself fails). -/
def should_backup (backup_master backup_replica : Bool)
    (roleResult : Except String RedisRole) : Except String Bool × Bool :=
  if backup_master && backup_replica then
    (.ok true, false)
  else if redisConnPresent backup_master backup_replica then
    match roleResult with
    | .error e => (.error e, true)
    | .ok RedisRole.Master => (.ok backup_master, true)
    | .ok RedisRole.Replica => (.ok backup_replica, true)
    | .ok RedisRole.Unknown => (.ok true, true)
  else
    (.ok true, false)

/-- Decision table written from the spec's words, amended for the
configuration in which both role flags are false: since `new` creates no
Redis connection when the flags are equal, that configuration returns
`true` without ever querying the role. -/
def specShouldBackup (backup_master backup_replica : Bool)
    (roleResult : Except String RedisRole) : Except String Bool × Bool :=
  match backup_master, backup_replica with
  | true, true => (.ok true, false)
  | false, false => (.ok true, false)
  | _, _ =>
    match roleResult with
    | .error e => (.error e, true)
    | .ok RedisRole.Master => (.ok backup_master, true)
    | .ok RedisRole.Replica => (.ok backup_replica, true)
    | .ok RedisRole.Unknown => (.ok true, true)

/-! ### Backup key generation (backup.rs lines 174-185)

The key is `format` of the trimmed key prefix, the node name and
`humantime::format_rfc3339_seconds(modified)`, where `modified` is the
dump file's last-modified `SystemTime`.  `format_rfc3339_seconds`
truncates to whole seconds; we model a `SystemTime` after the epoch as a
pair (whole seconds, subsecond nanoseconds) and reimplement the
formatter (proleptic Gregorian civil-from-days conversion). -/

/-- Rust `str::trim_end_matches('/')`: drop every trailing slash. -/
def trimEndSlashes (s : String) : String :=
  s.dropRightWhile (· == '/')

/-- Civil date (year, month, day) from days since 1970-01-01, for
non-negative day counts (epoch-era `SystemTime`s). -/
def civilFromDays (days : Nat) : Nat × Nat × Nat :=
  let z := days + 719468
  let era := z / 146097
  let doe := z % 146097
  let yoe := (doe - doe / 1460 + doe / 36524 - doe / 146096) / 365
  let y := yoe + era * 400
  let doy := doe - (365 * yoe + yoe / 4 - yoe / 100)
  let mp := (5 * doy + 2) / 153
  let d := doy - (153 * mp + 2) / 5 + 1
  let m := if mp < 10 then mp + 3 else mp - 9
  (if m ≤ 2 then y + 1 else y, m, d)

/-- Zero-pad a numeral to two digits. -/
def pad2 (n : Nat) : String :=
  if n < 10 then "0" ++ toString n else toString n

/-- Zero-pad a numeral to four digits (years in the epoch era are
always at least 1970). -/
def pad4 (n : Nat) : String :=
  if n < 10 then "000" ++ toString n
  else if n < 100 then "00" ++ toString n
  else if n < 1000 then "0" ++ toString n
  else toString n

/-- `humantime::format_rfc3339_seconds` on a `SystemTime` that is `secs`
whole seconds after the Unix epoch. -/
def rfc3339OfSecs (secs : Nat) : String :=
  let days := secs / 86400
  let rem := secs % 86400
  let ymd := civilFromDays days
  pad4 ymd.1 ++ "-" ++ pad2 ymd.2.1 ++ "-" ++ pad2 ymd.2.2 ++ "T" ++
    pad2 (rem / 3600) ++ ":" ++ pad2 (rem % 3600 / 60) ++ ":" ++
    pad2 (rem % 60) ++ "Z"

/-- The object key built in `perform_backup`:
the configured key prefix trimmed of trailing slashes, the node name, and
the source file's last-modified time (seconds, nanoseconds) truncated to
whole seconds, joined as prefix slash name underscore timestamp dot rdb. -/
def backupKey (keyPrefix node_name : String) (modified : Nat × Nat) : String :=
  trimEndSlashes keyPrefix ++ "/" ++ node_name ++ "_" ++
    rfc3339OfSecs modified.1 ++ ".rdb"

/-! ### Retention / cleanup (backup.rs lines 240-312)

`cleanup_old_backups` lists the node's backups, sorts them newest-first
with Rust's stable `sort_by(|a, b| b.timestamp.cmp(&a.timestamp))`,
builds a `HashSet` of indices to keep, and attempts to delete every
record whose index is outside that set.  A stable sort by a total
preorder is a unique function, so we use insertion sort (stable, and
structurally recursive hence kernel-evaluable) as the model of
`sort_by`. -/

/-- Newest-first stable sort of the listed backups. -/
def sortBackups (l : List BackupMeta) : List BackupMeta :=
  l.insertionSort (fun a b => b.timestamp ≤ a.timestamp)

/-- The keep-index set built by the two loops of `cleanup_old_backups`:
indices `0..min(keep_last, len)` (first loop), plus, when a keep
duration `d` is configured (already parsed here), every index whose
record's timestamp is strictly after `now - d` (second loop, cutoff
`Utc::now() - duration`). -/
def keepSet (keep_last : Nat) (keepDur : Option Int) (now : Int)
    (sorted : List BackupMeta) : Finset Nat :=
  Finset.range (min keep_last sorted.length) ∪
    (match keepDur with
     | none => (∅ : Finset Nat)
     | some d =>
       Finset.filter (fun i => now - d < ((sorted.getD i default).timestamp))
         (Finset.range sorted.length))

/-- Spec-side keep predicate, written from the spec's words: a record is
kept iff its index lies in `0..min(keepLast, length)` after the
newest-first sort, or (when a keep duration is configured) its timestamp
is strictly after `now - keepDuration`. -/
def specKeeps (keep_last : Nat) (keepDur : Option Int) (now : Int)
    (sorted : List BackupMeta) (i : Nat) : Bool :=
  decide (i < min keep_last sorted.length) ||
    (match keepDur with
     | none => false
     | some d => decide (now - d < (sorted.getD i default).timestamp))

/-- The records the deletion loop iterates over: each record of the
sorted listing whose index is not in the keep set, in listing order. -/
def deletionCandidates (keep_last : Nat) (keepDur : Option Int) (now : Int)
    (sorted : List BackupMeta) : List BackupMeta :=
  (sorted.enum.filter
      (fun p => decide (p.1 ∉ keepSet keep_last keepDur now sorted))).map
    Prod.snd

/-- Result of one `cleanup_old_backups` call: its `Result`, the keys for
which a storage delete was attempted (in order), how many deletes
succeeded, and the metric increments it performed. -/
structure CleanupResult where
  res : Except String Unit
  attempted : List String
  deletedCount : Nat
  cleanupOpsInc : Nat
  storageDeletesInc : Nat
  backupsDeletedInc : Nat
deriving Repr

/-- The keep-duration parse step inside `cleanup_old_backups`: when
`keep_duration` is configured, `humantime::parse_duration` (modelled by
`parseDuration`) must succeed, else `BackupError::Config` aborts the
cleanup. -/
def parsedKeepDuration (keep_duration : Option String)
    (parseDuration : String → Except String Int) : Except String (Option Int) :=
  match keep_duration with
  | none => .ok none
  | some s =>
    match parseDuration s with
    | .error e => .error ("Invalid duration: " ++ e)
    | .ok d => .ok (some d)

/-- `BackupManager::cleanup_old_backups` (backup.rs lines 240-312).
`listResult` is the outcome of `storage.list(&node_prefix)`;
`deleteOk key` tells whether `storage.delete(key)` succeeds.  The delete
loop increments `storage_deletes_total` on both the success and the
failure arm, counts only successes in `deleted_count`, never breaks, and
the function returns `Ok` regardless of individual delete failures. -/
def cleanup_old_backups (keep_last : Nat) (keep_duration : Option String)
    (listResult : Except String (List BackupMeta))
    (parseDuration : String → Except String Int)
    (now : Int) (deleteOk : String → Bool) : CleanupResult :=
  match listResult with
  | .error e => ⟨.error e, [], 0, 1, 0, 0⟩
  | .ok backups =>
    let sorted := sortBackups backups
    match parsedKeepDuration keep_duration parseDuration with
    | .error e => ⟨.error e, [], 0, 1, 0, 0⟩
    | .ok keepDur =>
      let keys := (deletionCandidates keep_last keepDur now sorted).map
        BackupMeta.key
      let deleted := (keys.filter deleteOk).length
      ⟨.ok (), keys, deleted, 1, keys.length, deleted⟩

/-! ### One backup cycle (backup.rs lines 138-233) -/

/-- The configuration fields `perform_backup` and `cleanup_old_backups`
read (from `Config` in `src/config.rs`). -/
structure VaultConfig where
  keyPrefix : String
  node_name : String
  backup_master : Bool
  backup_replica : Bool
  keep_last : Nat
  keep_duration : Option String

/-- The metric counters and the last-backup gauge touched during a
cycle (from `src/metrics.rs`; histograms carry no claim and are
omitted). -/
structure MetricsState where
  backups_total : Nat
  backups_successful : Nat
  backups_failed : Nat
  storage_uploads_total : Nat
  storage_deletes_total : Nat
  cleanup_operations_total : Nat
  backups_deleted_total : Nat
  last_backup_timestamp : Option Int
deriving Repr, DecidableEq

/-- The effectful environment of one cycle: the Redis role query
outcome, whether the dump file exists, the combined outcome of reading
its metadata and contents (last-modified seconds and nanoseconds, and
the byte count), the upload outcome, and the cleanup environment. -/
structure CycleEnv where
  roleResult : Except String RedisRole
  dumpExists : Bool
  readResult : Except String ((Nat × Nat) × Nat)
  uploadResult : Except String Unit
  listResult : Except String (List BackupMeta)
  parseDuration : String → Except String Int
  deleteOk : String → Bool

/-- Observable outcome of one `perform_backup` call. -/
structure CycleResult where
  res : Except String Unit
  metrics : MetricsState
  keyUsed : Option String
  cleanupRan : Bool
  warnedMissingDump : Bool
  attemptedDeletes : List String

/-- `BackupManager::perform_backup` (backup.rs lines 138-233):
increment `backups_total`; consult `should_backup` (a query error
propagates, a false answer is a successful skip); a missing dump file is
a successful no-op with a warning; otherwise read the file, build the
key from the file's last-modified time, and upload.  An upload attempt
increments `storage_uploads_total` on both arms; on success the
last-backup gauge is set to the current wall clock `now`,
`backups_successful` is incremented and cleanup runs, its error
propagating; on read or upload failure `backups_failed` is incremented
and the error is returned without cleanup. -/
def perform_backup (cfg : VaultConfig) (env : CycleEnv) (now : Int)
    (m0 : MetricsState) : CycleResult :=
  let m := { m0 with backups_total := m0.backups_total + 1 }
  match (should_backup cfg.backup_master cfg.backup_replica env.roleResult).1 with
  | .error e => ⟨.error e, m, none, false, false, []⟩
  | .ok false => ⟨.ok (), m, none, false, false, []⟩
  | .ok true =>
    if env.dumpExists then
      match env.readResult with
      | .error e =>
        ⟨.error e, { m with backups_failed := m.backups_failed + 1 },
          none, false, false, []⟩
      | .ok (modified, _dataLen) =>
        let key := backupKey cfg.keyPrefix cfg.node_name modified
        match env.uploadResult with
        | .error e =>
          ⟨.error e,
            { m with storage_uploads_total := m.storage_uploads_total + 1,
                     backups_failed := m.backups_failed + 1 },
            some key, false, false, []⟩
        | .ok () =>
          let m1 :=
            { m with storage_uploads_total := m.storage_uploads_total + 1,
                     last_backup_timestamp := some now,
                     backups_successful := m.backups_successful + 1 }
          let c := cleanup_old_backups cfg.keep_last cfg.keep_duration
            env.listResult env.parseDuration now env.deleteOk
          ⟨c.res,
            { m1 with
                cleanup_operations_total :=
                  m1.cleanup_operations_total + c.cleanupOpsInc,
                storage_deletes_total :=
                  m1.storage_deletes_total + c.storageDeletesInc,
                backups_deleted_total :=
                  m1.backups_deleted_total + c.backupsDeletedInc },
            some key, true, false, c.attempted⟩
    else
      ⟨.ok (), m, none, false, true, []⟩

/-! ### Scheduler (backup.rs lines 320-364) -/

/-- The wait computed at the top of the `run` loop:
`(interval.as_secs() as i64 - Utc::now().timestamp() % interval.as_secs() as i64) as u64`
seconds.  Rust's `%` on `i64` is truncated remainder (`Int.tmod`), and it
panics when the divisor is zero; `none` models that panic. -/
def nextIntervalWait (intervalSecs : Nat) (nowTs : Int) : Option Nat :=
  if intervalSecs = 0 then none
  else some (((intervalSecs : Int) - Int.tmod nowTs (intervalSecs : Int)).toNat)

/-- Outcome of reaching the first tick of `BackupManager::run`. -/
inductive RunStep where
  | configError (msg : String)
  | panic
  | immediate
  | wait (secs : Nat)
deriving Repr, DecidableEq

/-- First scheduling step of `BackupManager::run`: parse the interval
string (a parse failure is the `BackupError::Config` path), then — unless
`once` — compute the epoch-aligned wait, which panics on a zero-second
interval.  `parseInterval` is the result of
`humantime::parse_duration(&config.backup.interval)` in whole seconds. -/
def runFirstWait (parseInterval : Except String Nat) (once : Bool)
    (nowTs : Int) : RunStep :=
  match parseInterval with
  | .error e => .configError ("Invalid interval: " ++ e)
  | .ok n =>
    if once then .immediate
    else
      match nextIntervalWait n nowTs with
      | none => .panic
      | some w => .wait w

/-! ### Storage backend listings (src/storage/s3.rs, src/storage/gcs.rs)

Both `list` implementations are modelled against an abstract store whose
listing responses arrive as a sequence of pages: the first request
returns the first page, a follow-up request with the continuation/page
token returns the next page, and so on. -/

/-- One object of an S3 `ListObjectsV2` response (`aws_sdk_s3` optional
fields).  `last_modified` is the store's server-side timestamp in whole
seconds. -/
structure S3Object where
  key : Option String
  last_modified : Option Int
  size : Option Int
deriving Repr, DecidableEq

/-- One S3 `ListObjectsV2` response page.  The continuation token is
implicit: when `is_truncated` holds, the next page of the sequence is
the one the token designates. -/
structure S3Page where
  contents : Option (List S3Object)
  is_truncated : Option Bool
deriving Repr, DecidableEq

/-- The record `S3Storage::list` pushes for an object: skipped unless
both `key` and `last_modified` are present; the timestamp comes from the
`last_modified` metadata (the chrono out-of-range fallback to `now`
cannot fire for store-produced timestamps and is not modelled); the size
defaults to 0. -/
def s3ObjectMeta (o : S3Object) : Option BackupMeta :=
  match o.key, o.last_modified with
  | some k, some lm => some ⟨k, lm, o.size.getD 0⟩
  | _, _ => none

/-- The `loop` of `S3Storage::list` (s3.rs lines 62-103): collect the
current page's records, and continue with the continuation token exactly
when `is_truncated` (default false) holds. -/
def s3_list : List S3Page → List BackupMeta
  | [] => []
  | p :: rest =>
    (p.contents.getD []).filterMap s3ObjectMeta ++
      (if p.is_truncated.getD false then s3_list rest else [])

/-- One object of a GCS `list_objects` response.  `time_created` is the
store's server-side creation timestamp in whole seconds. -/
structure GcsObject where
  name : String
  time_created : Option Int
  size : Int
deriving Repr, DecidableEq

/-- One GCS `list_objects` response page.  The response carries a
`next_page_token` when further pages exist; `GcsStorage::list` never
reads it. -/
structure GcsPage where
  items : Option (List GcsObject)
  next_page_token : Option String
deriving Repr, DecidableEq

/-- The record `GcsStorage::list` pushes for an object: skipped unless
`time_created` is present; the timestamp comes from the `time_created`
metadata. -/
def gcsObjectMeta (o : GcsObject) : Option BackupMeta :=
  o.time_created.map fun t => ⟨o.name, t, o.size⟩

/-- `GcsStorage::list` (gcs.rs lines 57-91): a single `list_objects`
request, so only the first response page is consumed; `next_page_token`
is ignored. -/
def gcs_list (pages : List GcsPage) : List BackupMeta :=
  match pages with
  | [] => []
  | p :: _ => (p.items.getD []).filterMap gcsObjectMeta

/-- Every record under the prefix, across all pages — what the spec
requires `list` to return. -/
def gcsAllObjects (pages : List GcsPage) : List BackupMeta :=
  pages.flatMap fun p => (p.items.getD []).filterMap gcsObjectMeta

/-- Every record under the prefix, across all S3 pages. -/
def s3AllObjects (pages : List S3Page) : List BackupMeta :=
  pages.flatMap fun p => (p.contents.getD []).filterMap s3ObjectMeta

/-! ### Concrete data used by the witnesses -/

/-- A small listing with out-of-order timestamps. -/
def demoBackups : List BackupMeta :=
  [⟨"a", 1, 0⟩, ⟨"b", 3, 0⟩, ⟨"c", 2, 0⟩]

/-- Duration strings never consulted in the scenarios that use this. -/
def demoParse : String → Except String Int := fun _ => .error "unused"

/-- A delete oracle that fails exactly on key `a`. -/
def demoDeleteOk : String → Bool := fun k => k != "a"

/-- Configuration with both role flags set and no keep duration. -/
def demoCfg : VaultConfig := ⟨"redis-vault", "node-1", true, true, 7, none⟩

/-- Configuration whose keep duration string will fail to parse. -/
def demoCfgBadDur : VaultConfig := ⟨"redis-vault", "node-1", true, true, 7, some "7dd"⟩

/-- All counters at zero. -/
def demoMetrics : MetricsState := ⟨0, 0, 0, 0, 0, 0, 0, none⟩

/-- Cycle environment whose dump file is missing. -/
def demoEnvNoDump : CycleEnv :=
  ⟨.ok RedisRole.Unknown, false, .error "unused", .ok (), .ok [], demoParse,
    fun _ => true⟩

/-- Cycle environment whose upload fails. -/
def demoEnvUploadFail : CycleEnv :=
  ⟨.ok RedisRole.Unknown, true, .ok ((1700000000, 0), 4), .error "upload failed",
    .ok [], demoParse, fun _ => true⟩

/-- Cycle environment whose upload succeeds but whose keep-duration
string is rejected by the duration syntax. -/
def demoEnvBadDur : CycleEnv :=
  ⟨.ok RedisRole.Unknown, true, .ok ((1700000000, 0), 4), .ok (),
    .ok demoBackups, fun _ => .error "bad suffix", fun _ => true⟩

/-- A two-page GCS listing: the first response carries a
`next_page_token` announcing the second page. -/
def gcsDemoPages : List GcsPage :=
  [⟨some [⟨"redis-vault/node-1_a.rdb", some 100, 1⟩], some "token-2"⟩,
   ⟨some [⟨"redis-vault/node-1_b.rdb", some 200, 2⟩], none⟩]

/-! ### Theorems -/

/-- The S3 `list` loop follows continuation tokens until the listing is
exhausted: whenever every non-final response page is marked truncated,
the loop returns the records of every page. -/
theorem s3_list_follows_pagination (pages : List S3Page)
    (h : ∀ p ∈ pages.dropLast, p.is_truncated.getD false = true) :
    s3_list pages = s3AllObjects pages := by
  induction pages with
  | nil => rfl
  | cons p rest ih =>
    cases rest with
    | nil =>
      simp only [s3_list, s3AllObjects, List.flatMap_cons, List.flatMap_nil,
        List.append_nil]
      cases hp : p.is_truncated.getD false <;> simp [s3_list]
    | cons q rest' =>
      have hp : p.is_truncated.getD false = true := by
        exact h p (by simp [List.dropLast])
      have h' : ∀ x ∈ (q :: rest').dropLast, x.is_truncated.getD false = true := by
        intro x hx
        exact h x (by simp [List.dropLast, hx])
      have h2 := ih h'
      simp only [s3_list, s3AllObjects, List.flatMap_cons, hp, if_true]
      simp only [s3_list, s3AllObjects, List.flatMap_cons] at h2
      rw [List.append_cancel_left h2]

/-- Claim C3: `list(prefix)` must return every object under the prefix
for both backends, following pagination until exhausted.  The S3 loop
does (see `s3_list_follows_pagination`), but `GcsStorage::list` issues a
single `list_objects` request and ignores `next_page_token`: on a
two-page listing it returns only the first page's record and misses the
second, contradicting the claim. -/
theorem gcs_list_first_page_only :
    gcs_list gcsDemoPages = [⟨"redis-vault/node-1_a.rdb", 100, 1⟩] ∧
    gcsAllObjects gcsDemoPages =
      [⟨"redis-vault/node-1_a.rdb", 100, 1⟩, ⟨"redis-vault/node-1_b.rdb", 200, 2⟩] ∧
    gcs_list gcsDemoPages ≠ gcsAllObjects gcsDemoPages :=
  ⟨rfl, rfl, by decide⟩

/-- The claim C2 instance that fails on the code: with
`backup_master = false` and `backup_replica = false`, `new` creates no
Redis connection, so `should_backup` returns `true` (backup) without
querying, not the `false` (skip) the claim requires for a Master node. -/
theorem should_backup_skip_counterexample :
    should_backup false false (.ok RedisRole.Master) = (.ok true, false) ∧
    (Except.ok true : Except String Bool) ≠ .ok false :=
  ⟨rfl, fun h => Bool.noConfusion (Except.ok.inj h)⟩

/-- Claim C2 (amended): when both flags are true, `should_backup`
returns true without querying; when the flags differ, the role is
queried and Master maps to `backup_master`, Replica to `backup_replica`,
Unknown to true, a query error propagating; and when both flags are
false, no connection exists, so it returns true without querying. -/
theorem should_backup_decision_table (bm br : Bool)
    (r : Except String RedisRole) :
    should_backup bm br r = specShouldBackup bm br r := by
  cases bm <;> cases br <;>
    cases r with
    | error e => rfl
    | ok role => cases role <;> rfl

/-- Claim C2 witness (amended): a concrete differing-flags instance of
the decision table. -/
theorem should_backup_decision_table_witness :
    should_backup false true (.ok RedisRole.Master) =
      specShouldBackup false true (.ok RedisRole.Master) :=
  should_backup_decision_table false true (.ok RedisRole.Master)

/-- Claim C7: in RunForever mode, for a positive interval of `n` whole
seconds and a non-negative epoch timestamp `t`, the scheduler waits
`n - (t mod n)` seconds before the next cycle. -/
theorem run_forever_alignment (n : Nat) (t : Int) (hn : 0 < n)
    (ht : 0 ≤ t) :
    runFirstWait (.ok n) false t = .wait (n - t.toNat % n) := by
  obtain ⟨m, rfl⟩ : ∃ m : Nat, t = (m : Int) :=
    ⟨t.toNat, (Int.toNat_of_nonneg ht).symm⟩
  have hn' : n ≠ 0 := by omega
  have htm : Int.tmod (m : Int) (n : Int) = ((m % n : Nat) : Int) := by
    rw [Int.tmod_eq_emod (by positivity) (by positivity)]
    push_cast
    ring
  simp only [runFirstWait, nextIntervalWait, hn', if_false, htm,
    Int.toNat_natCast, Bool.false_eq_true]
  have hk : m % n < n := Nat.mod_lt _ hn
  congr 1
  omega

/-- Claim C7 witness: interval 3600 s at epoch second 7230 waits 3570 s. -/
theorem run_forever_alignment_witness :
    runFirstWait (.ok 3600) false 7230 = .wait 3570 := by
  have h := run_forever_alignment 3600 7230 (by decide) (by decide)
  have : 3600 - (7230 : Int).toNat % 3600 = 3570 := by decide
  rw [this] at h
  exact h

/-- Claim C9: an interval string that parses to a zero-second duration
drives the RunForever arithmetic into a remainder by zero — the modelled
panic — at the first tick, which is distinct from the Config-error
outcome reserved for unparseable interval strings. -/
theorem zero_interval_panics (nowTs : Int) (e : String) :
    runFirstWait (.ok 0) false nowTs = .panic ∧
    runFirstWait (.error e) false nowTs =
      .configError ("Invalid interval: " ++ e) ∧
    ∀ msg, RunStep.panic ≠ RunStep.configError msg :=
  ⟨rfl, rfl, fun _ h => RunStep.noConfusion h⟩

/-- Claim C9 witness: the zero-second interval panics at a concrete
epoch second. -/
theorem zero_interval_panics_witness :
    runFirstWait (.ok 0) false 1700000000 = .panic :=
  (zero_interval_panics 1700000000 "x").1

/-- Claim C4: the backup object key is a deterministic function of the
trimmed key prefix, the node name, and the source file's last-modified
time truncated to whole seconds, so two runs against an unchanged dump
file produce the identical key; and the key `perform_backup` uses does
not depend on the cycle's wall-clock time `now`. -/
theorem backup_key_stable (p node : String) (m m' : Nat × Nat)
    (h : m.1 = m'.1) :
    backupKey p node m = backupKey p node m' ∧
    backupKey p node m =
      trimEndSlashes p ++ "/" ++ node ++ "_" ++ rfc3339OfSecs m.1 ++ ".rdb" ∧
    ∀ (cfg : VaultConfig) (env : CycleEnv) (now now' : Int)
      (ms : MetricsState),
      (perform_backup cfg env now ms).keyUsed =
        (perform_backup cfg env now' ms).keyUsed := by
  refine ⟨by unfold backupKey; rw [h], rfl, ?_⟩
  intro cfg env now now' ms
  unfold perform_backup
  cases (should_backup cfg.backup_master cfg.backup_replica env.roleResult).1 with
  | error e => rfl
  | ok b =>
    cases b with
    | false => rfl
    | true =>
      cases env.dumpExists with
      | false => rfl
      | true =>
        cases env.readResult with
        | error e => rfl
        | ok rd =>
          obtain ⟨modified, len⟩ := rd
          cases env.uploadResult with
          | error e => rfl
          | ok u => rfl

/-- Claim C4 witness: an unchanged last-modified second (different
subsecond nanoseconds) yields the identical key. -/
theorem backup_key_stable_witness :
    backupKey "redis-vault/" "node-1" (1700000000, 5) =
      backupKey "redis-vault/" "node-1" (1700000000, 999999999) :=
  (backup_key_stable "redis-vault/" "node-1" (1700000000, 5)
    (1700000000, 999999999) rfl).1

/-- Claim C6: when the role check allows the backup but the dump file
does not exist, the cycle warns, returns success, performs no upload and
no cleanup, and leaves every counter other than `backups_total`
unchanged. -/
theorem missing_dump_noop (cfg : VaultConfig) (env : CycleEnv) (now : Int)
    (m : MetricsState)
    (hrole : (should_backup cfg.backup_master cfg.backup_replica
        env.roleResult).1 = .ok true)
    (hdump : env.dumpExists = false) :
    (perform_backup cfg env now m).res = .ok () ∧
    (perform_backup cfg env now m).warnedMissingDump = true ∧
    (perform_backup cfg env now m).keyUsed = none ∧
    (perform_backup cfg env now m).cleanupRan = false ∧
    (perform_backup cfg env now m).attemptedDeletes = [] ∧
    (perform_backup cfg env now m).metrics =
      { m with backups_total := m.backups_total + 1 } := by
  simp only [perform_backup, hrole, hdump]
  exact ⟨rfl, rfl, rfl, rfl, rfl, rfl⟩

/-- Claim C6 witness: a concrete cycle with a missing dump file is a
successful no-op and the failure counter stays at zero. -/
theorem missing_dump_noop_witness :
    (perform_backup demoCfg demoEnvNoDump 0 demoMetrics).res = .ok () ∧
    (perform_backup demoCfg demoEnvNoDump 0 demoMetrics).warnedMissingDump
      = true ∧
    (perform_backup demoCfg demoEnvNoDump 0 demoMetrics).metrics =
      { demoMetrics with backups_total := demoMetrics.backups_total + 1 } := by
  have h := missing_dump_noop demoCfg demoEnvNoDump 0 demoMetrics rfl rfl
  exact ⟨h.1, h.2.1, h.2.2.2.2.2⟩

/-- Claim C5: a failed read or upload increments the failure counter and
returns the error without invoking cleanup, while a successful upload
increments the success counter and runs cleanup. -/
theorem upload_failure_skips_cleanup (cfg : VaultConfig) (env : CycleEnv)
    (now : Int) (m : MetricsState)
    (hrole : (should_backup cfg.backup_master cfg.backup_replica
        env.roleResult).1 = .ok true)
    (hdump : env.dumpExists = true) :
    (∀ e, env.readResult = .error e →
      (perform_backup cfg env now m).res = .error e ∧
      (perform_backup cfg env now m).metrics.backups_failed =
        m.backups_failed + 1 ∧
      (perform_backup cfg env now m).metrics.backups_successful =
        m.backups_successful ∧
      (perform_backup cfg env now m).cleanupRan = false ∧
      (perform_backup cfg env now m).attemptedDeletes = []) ∧
    (∀ rd e, env.readResult = .ok rd → env.uploadResult = .error e →
      (perform_backup cfg env now m).res = .error e ∧
      (perform_backup cfg env now m).metrics.backups_failed =
        m.backups_failed + 1 ∧
      (perform_backup cfg env now m).metrics.backups_successful =
        m.backups_successful ∧
      (perform_backup cfg env now m).cleanupRan = false ∧
      (perform_backup cfg env now m).attemptedDeletes = []) ∧
    (∀ rd, env.readResult = .ok rd → env.uploadResult = .ok () →
      (perform_backup cfg env now m).metrics.backups_successful =
        m.backups_successful + 1 ∧
      (perform_backup cfg env now m).metrics.backups_failed =
        m.backups_failed ∧
      (perform_backup cfg env now m).cleanupRan = true) := by
  refine ⟨?_, ?_, ?_⟩
  · intro e he
    simp only [perform_backup, hrole, hdump, he, if_true]
    simp
  · intro rd e hr hu
    obtain ⟨modified, len⟩ := rd
    simp only [perform_backup, hrole, hdump, hr, hu, if_true]
    simp
  · intro rd hr hu
    obtain ⟨modified, len⟩ := rd
    simp only [perform_backup, hrole, hdump, hr, hu, if_true]
    simp

/-- Claim C5 witness: a concrete cycle whose upload fails returns the
upload error, counts one failure, and never runs cleanup. -/
theorem upload_failure_skips_cleanup_witness :
    (perform_backup demoCfg demoEnvUploadFail 0 demoMetrics).res =
      .error "upload failed" ∧
    (perform_backup demoCfg demoEnvUploadFail 0 demoMetrics).metrics.backups_failed =
      demoMetrics.backups_failed + 1 ∧
    (perform_backup demoCfg demoEnvUploadFail 0 demoMetrics).cleanupRan =
      false := by
  have h := (upload_failure_skips_cleanup demoCfg demoEnvUploadFail 0
    demoMetrics rfl rfl).2.1 ((1700000000, 0), 4) "upload failed" rfl rfl
  exact ⟨h.1, h.2.1, h.2.2.2.1⟩

/-- Claim C10: when the cycle reaches a successful upload but the
configured keep-duration string fails to parse, the success counter is
still incremented, cleanup then fails with the Config error, the error
propagates out of `perform_backup`, and no deletion is ever attempted. -/
theorem malformed_keep_duration_cycle (cfg : VaultConfig) (env : CycleEnv)
    (now : Int) (m : MetricsState) (rd : (Nat × Nat) × Nat) (s e : String)
    (bs : List BackupMeta)
    (hrole : (should_backup cfg.backup_master cfg.backup_replica
        env.roleResult).1 = .ok true)
    (hdump : env.dumpExists = true)
    (hread : env.readResult = .ok rd)
    (hup : env.uploadResult = .ok ())
    (hs : cfg.keep_duration = some s)
    (he : env.parseDuration s = .error e)
    (hlist : env.listResult = .ok bs) :
    (perform_backup cfg env now m).res = .error ("Invalid duration: " ++ e) ∧
    (perform_backup cfg env now m).metrics.backups_successful =
      m.backups_successful + 1 ∧
    (perform_backup cfg env now m).metrics.backups_failed = m.backups_failed ∧
    (perform_backup cfg env now m).attemptedDeletes = [] ∧
    (perform_backup cfg env now m).metrics.storage_deletes_total =
      m.storage_deletes_total ∧
    (perform_backup cfg env now m).metrics.backups_deleted_total =
      m.backups_deleted_total ∧
    (perform_backup cfg env now m).cleanupRan = true := by
  obtain ⟨modified, len⟩ := rd
  simp only [perform_backup, hrole, hdump, hread, hup, if_true,
    cleanup_old_backups, hlist, hs, parsedKeepDuration, he]
  simp

/-- Claim C10 witness: a concrete cycle with keep duration string
`7dd` uploads, counts the success, then errors without deleting. -/
theorem malformed_keep_duration_cycle_witness :
    (perform_backup demoCfgBadDur demoEnvBadDur 0 demoMetrics).res =
      .error ("Invalid duration: " ++ "bad suffix") ∧
    (perform_backup demoCfgBadDur demoEnvBadDur 0 demoMetrics).metrics.backups_successful =
      demoMetrics.backups_successful + 1 ∧
    (perform_backup demoCfgBadDur demoEnvBadDur 0 demoMetrics).attemptedDeletes
      = [] := by
  have h := malformed_keep_duration_cycle demoCfgBadDur demoEnvBadDur 0
    demoMetrics ((1700000000, 0), 4) "7dd" "bad suffix" demoBackups rfl rfl
    rfl rfl rfl rfl rfl
  exact ⟨h.1, h.2.1, h.2.2.2.1⟩

/-- Claim C8: once the listing and the keep-duration parse have
succeeded, cleanup attempts a delete for every record outside the keep
set, in order, regardless of individual delete failures — the attempted
keys do not depend on the delete outcomes — counts only successful
deletes, and returns success. -/
theorem cleanup_best_effort (keep_last : Nat) (keep_duration : Option String)
    (backups : List BackupMeta) (parseD : String → Except String Int)
    (now : Int) (deleteOk : String → Bool) (kd : Option Int)
    (hparse : parsedKeepDuration keep_duration parseD = .ok kd) :
    (cleanup_old_backups keep_last keep_duration (.ok backups) parseD now
      deleteOk).res = .ok () ∧
    (cleanup_old_backups keep_last keep_duration (.ok backups) parseD now
      deleteOk).attempted =
      (deletionCandidates keep_last kd now (sortBackups backups)).map
        BackupMeta.key ∧
    (cleanup_old_backups keep_last keep_duration (.ok backups) parseD now
      deleteOk).storageDeletesInc =
      (cleanup_old_backups keep_last keep_duration (.ok backups) parseD now
        deleteOk).attempted.length ∧
    (cleanup_old_backups keep_last keep_duration (.ok backups) parseD now
      deleteOk).deletedCount =
      ((cleanup_old_backups keep_last keep_duration (.ok backups) parseD now
        deleteOk).attempted.filter deleteOk).length ∧
    ∀ deleteOk' : String → Bool,
      (cleanup_old_backups keep_last keep_duration (.ok backups) parseD now
        deleteOk').attempted =
      (cleanup_old_backups keep_last keep_duration (.ok backups) parseD now
        deleteOk).attempted := by
  simp only [cleanup_old_backups, hparse]
  simp

/-- Claim C8 witness: with records `a`, `b`, `c` (timestamps 1, 3, 2),
`keep_last = 1` and no duration, cleanup attempts `c` then `a` even
though deleting `a` fails, and still returns success. -/
theorem cleanup_best_effort_witness :
    (cleanup_old_backups 1 none (.ok demoBackups) demoParse 0
      demoDeleteOk).res = .ok () ∧
    (cleanup_old_backups 1 none (.ok demoBackups) demoParse 0
      demoDeleteOk).attempted = ["c", "a"] ∧
    (cleanup_old_backups 1 none (.ok demoBackups) demoParse 0
      demoDeleteOk).deletedCount = 1 := by
  have h := cleanup_best_effort 1 none demoBackups demoParse 0 demoDeleteOk
    none rfl
  refine ⟨h.1, ?_, ?_⟩
  · rw [h.2.1]
    decide
  · rw [h.2.2.2.1, h.2.1]
    decide

/-- Claim C1: after the newest-first sort, the keep set is exactly the
union of the first `min(keepLast, length)` indices and (when a keep
duration is configured) the indices of records strictly newer than
`now - keepDuration`; the deletion candidates are exactly the records
outside that union; at least `min(keepLast, length)` indices are kept;
and no record both at or before the cutoff and outside the newest
`keepLast` window is kept. -/
theorem cleanup_partition (records : List BackupMeta) (keep_last : Nat)
    (keepDur : Option Int) (now : Int) :
    (∀ i, i ∈ keepSet keep_last keepDur now (sortBackups records) ↔
      i < (sortBackups records).length ∧
        specKeeps keep_last keepDur now (sortBackups records) i = true) ∧
    deletionCandidates keep_last keepDur now (sortBackups records) =
      ((sortBackups records).enum.filter
        (fun p => ! specKeeps keep_last keepDur now (sortBackups records)
          p.1)).map Prod.snd ∧
    (∀ i, i < min keep_last (sortBackups records).length →
      i ∈ keepSet keep_last keepDur now (sortBackups records)) ∧
    min keep_last (sortBackups records).length ≤
      (keepSet keep_last keepDur now (sortBackups records)).card ∧
    (∀ d i, keepDur = some d → i < (sortBackups records).length →
      min keep_last (sortBackups records).length ≤ i →
      ((sortBackups records).getD i default).timestamp ≤ now - d →
      i ∉ keepSet keep_last keepDur now (sortBackups records)) := by
  set sorted := sortBackups records with hsorted
  have hmem : ∀ i, i ∈ keepSet keep_last keepDur now sorted ↔
      i < sorted.length ∧ specKeeps keep_last keepDur now sorted i = true := by
    intro i
    unfold keepSet specKeeps
    cases keepDur with
    | none =>
      simp only [Finset.union_empty, Finset.mem_range, Bool.or_false,
        decide_eq_true_eq]
      constructor
      · intro h
        exact ⟨lt_of_lt_of_le h (Nat.min_le_right _ _), h⟩
      · intro h
        exact h.2
    | some d =>
      simp only [Finset.mem_union, Finset.mem_range, Finset.mem_filter,
        Bool.or_eq_true, decide_eq_true_eq]
      constructor
      · rintro (h | ⟨h1, h2⟩)
        · exact ⟨lt_of_lt_of_le h (Nat.min_le_right _ _), Or.inl h⟩
        · exact ⟨h1, Or.inr h2⟩
      · rintro ⟨h1, h | h⟩
        · exact Or.inl h
        · exact Or.inr ⟨h1, h⟩
  refine ⟨hmem, ?_, ?_, ?_, ?_⟩
  · unfold deletionCandidates
    apply congrArg (List.map Prod.snd)
    apply List.filter_congr
    intro p hp
    have hlt : p.1 < sorted.length := by
      have h1 := List.mem_enum_iff_getElem?.mp hp
      obtain ⟨h2, _⟩ := List.getElem?_eq_some.mp h1
      exact h2
    by_cases hk : specKeeps keep_last keepDur now sorted p.1 = true
    · have hin : p.1 ∈ keepSet keep_last keepDur now sorted :=
        (hmem p.1).mpr ⟨hlt, hk⟩
      simp [hin, hk]
    · have hout : p.1 ∉ keepSet keep_last keepDur now sorted :=
        fun hin => hk ((hmem p.1).mp hin).2
      simp only [Bool.not_eq_true] at hk
      simp [hout, hk]
  · intro i hi
    unfold keepSet
    exact Finset.mem_union_left _ (Finset.mem_range.mpr hi)
  · calc min keep_last sorted.length
        = (Finset.range (min keep_last sorted.length)).card :=
          (Finset.card_range _).symm
      _ ≤ (keepSet keep_last keepDur now sorted).card := by
          apply Finset.card_le_card
          unfold keepSet
          exact Finset.subset_union_left
  · intro d i hd hlen hwin hts hin
    obtain ⟨-, hspec⟩ := (hmem i).mp hin
    subst hd
    unfold specKeeps at hspec
    simp only [Bool.or_eq_true, decide_eq_true_eq] at hspec
    rcases hspec with h | h
    · omega
    · exact absurd h (not_lt.mpr hts)

/-- Claim C1 witness: with three records and `keepLast = 2`, at least
two indices are kept. -/
theorem cleanup_partition_witness :
    min 2 (sortBackups demoBackups).length ≤
      (keepSet 2 none 0 (sortBackups demoBackups)).card :=
  (cleanup_partition demoBackups 2 none 0).2.2.2.1

end RedisVault
